import Mathlib

/-!
Shallow embedding of the `libc-strftime` crate (src/lib.rs), a thin wrapper
over the C runtime's time formatting facility.  The OS collaborators
(`localtime_r`, `gmtime_r`, the C `strftime`, `setlocale`, `tzset`, `time`)
are foreign functions, so they are modelled as an oracle structure `OS` of
pure functions; the wrapper code itself is translated line by line from the
Rust source.  Process-global locale/timezone state is threaded explicitly
as a `ProcState` value, and environment variables as an `Env` value.
-/

namespace LibcStrftime

/-- The broken-down calendar record (`libc::tm`): second, minute, hour,
day-of-month, zero-based month, year offset, day-of-week, day-of-year,
DST flag, and on POSIX targets a UTC offset and a zone name. -/
structure Tm where
  tm_sec : Int
  tm_min : Int
  tm_hour : Int
  tm_mday : Int
  tm_mon : Int
  tm_year : Int
  tm_wday : Int
  tm_yday : Int
  tm_isdst : Int
  tm_gmtoff : Int
  tm_zone : String
deriving Repr, DecidableEq

/-- The fully zero-initialized calendar record: `mem::zeroed::<libc::tm>()`
(a null `tm_zone` pointer is modelled as the empty string). -/
def zeroTm : Tm :=
  { tm_sec := 0, tm_min := 0, tm_hour := 0, tm_mday := 0, tm_mon := 0
    tm_year := 0, tm_wday := 0, tm_yday := 0, tm_isdst := 0
    tm_gmtoff := 0, tm_zone := "" }

/-- Every field of a `Tm` is zero / null. -/
def tmIsZero (t : Tm) : Prop :=
  t.tm_sec = 0 ∧ t.tm_min = 0 ∧ t.tm_hour = 0 ∧ t.tm_mday = 0 ∧
  t.tm_mon = 0 ∧ t.tm_year = 0 ∧ t.tm_wday = 0 ∧ t.tm_yday = 0 ∧
  t.tm_isdst = 0 ∧ t.tm_gmtoff = 0 ∧ t.tm_zone = ""

instance (t : Tm) : Decidable (tmIsZero t) := by
  unfold tmIsZero; infer_instance

/-- Process-wide global state owned by the C runtime: the active locale and
the active timezone rules. -/
structure ProcState where
  locale : String
  tz : String
deriving Repr, DecidableEq

/-- The process environment variables the C runtime consults: the
locale-selection variable and the timezone-selection variable. -/
structure Env where
  lc_all : String
  tz : String
deriving Repr, DecidableEq

/-- Oracle for the foreign C routines declared in the crate's `mod c`
block (plus `libc::setlocale`).  Each is a pure function of exactly the
data the corresponding C routine may read:
  - `localtime_r` reads the active timezone rules, the epoch, and the
    caller's record; it returns the populated record;
  - `gmtime_r` reads the epoch and the caller's record only (UTC
    conversion is independent of the timezone configuration);
  - `c_strftime` reads the active locale, the caller's buffer and its
    capacity, the format bytes, and the record; it returns the reported
    byte count (0 on truncation) and the buffer contents after the call;
  - `clock` is the value `time(NULL)` reports;
  - `localeOfEnv` / `tzOfEnv` describe how `setlocale(LC_ALL, "")` and
    `tzset()` derive the new global state from the environment. -/
structure OS where
  localtime_r : String → Int → Tm → Tm
  gmtime_r : Int → Tm → Tm
  c_strftime : String → List Nat → Nat → List Nat → Tm → Nat × List Nat
  clock : Int
  localeOfEnv : String → String
  tzOfEnv : String → String

/-- UTF-8 encoding of one scalar value, as Rust strings store them. -/
def charUtf8 (c : Char) : List Nat :=
  let n := c.toNat
  if n < 0x80 then [n]
  else if n < 0x800 then [0xC0 + n / 64, 0x80 + n % 64]
  else if n < 0x10000 then [0xE0 + n / 4096, 0x80 + (n / 64) % 64, 0x80 + n % 64]
  else [0xF0 + n / 262144, 0x80 + (n / 4096) % 64, 0x80 + (n / 64) % 64, 0x80 + n % 64]

/-- The UTF-8 byte sequence of a Rust `&str`. -/
def strBytes (s : String) : List Nat := s.data.flatMap charUtf8

/-- The replacement character U+FFFD emitted by lossy decoding. -/
def replChar : Char := Char.ofNat 0xFFFD

/-- A UTF-8 continuation byte, `0x80..=0xBF`. -/
def isCont (b : Nat) : Bool := 0x80 ≤ b && b < 0xC0

/-- Valid second byte after a three-byte lead (excludes overlong forms for
lead `0xE0` and surrogates for lead `0xED`). -/
def cont2ok (lead b : Nat) : Bool :=
  if lead = 0xE0 then 0xA0 ≤ b && b < 0xC0
  else if lead = 0xED then 0x80 ≤ b && b < 0xA0
  else isCont b

/-- Valid second byte after a four-byte lead (excludes overlong forms for
lead `0xF0` and values above U+10FFFF for lead `0xF4`). -/
def cont3ok (lead b : Nat) : Bool :=
  if lead = 0xF0 then 0x90 ≤ b && b < 0xC0
  else if lead = 0xF4 then 0x80 ≤ b && b < 0x90
  else isCont b

/-- Fuel-indexed worker for lossy UTF-8 decoding, one maximal subpart per
step (the replacement policy of Rust's `String::from_utf8_lossy`).  The
fuel only needs to dominate the byte count, since every step consumes at
least one byte. -/
def utf8LossyGo : Nat → List Nat → List Char
  | 0, _ => []
  | _ + 1, [] => []
  | fuel + 1, b :: rest =>
    if b < 0x80 then Char.ofNat b :: utf8LossyGo fuel rest
    else if b < 0xC2 then replChar :: utf8LossyGo fuel rest
    else if b < 0xE0 then
      match rest with
      | [] => [replChar]
      | b1 :: rest1 =>
        if isCont b1 then
          Char.ofNat ((b - 0xC0) * 64 + (b1 - 0x80)) :: utf8LossyGo fuel rest1
        else replChar :: utf8LossyGo fuel rest
    else if b < 0xF0 then
      match rest with
      | [] => [replChar]
      | b1 :: rest1 =>
        if cont2ok b b1 then
          match rest1 with
          | [] => [replChar]
          | b2 :: rest2 =>
            if isCont b2 then
              Char.ofNat ((b - 0xE0) * 4096 + (b1 - 0x80) * 64 + (b2 - 0x80)) ::
                utf8LossyGo fuel rest2
            else replChar :: utf8LossyGo fuel rest1
        else replChar :: utf8LossyGo fuel rest
    else if b < 0xF5 then
      match rest with
      | [] => [replChar]
      | b1 :: rest1 =>
        if cont3ok b b1 then
          match rest1 with
          | [] => [replChar]
          | b2 :: rest2 =>
            if isCont b2 then
              match rest2 with
              | [] => [replChar]
              | b3 :: rest3 =>
                if isCont b3 then
                  Char.ofNat ((b - 0xF0) * 262144 + (b1 - 0x80) * 4096 +
                      (b2 - 0x80) * 64 + (b3 - 0x80)) :: utf8LossyGo fuel rest3
                else replChar :: utf8LossyGo fuel rest2
            else replChar :: utf8LossyGo fuel rest1
        else replChar :: utf8LossyGo fuel rest
    else replChar :: utf8LossyGo fuel rest

/-- Rust's `String::from_utf8_lossy`: total lossy UTF-8 decoding.  Invalid
sequences become U+FFFD; decoding never fails. -/
def fromUtf8Lossy (bs : List Nat) : String := String.mk (utf8LossyGo bs.length bs)

/-- The panic conditions reachable in the Rust `strftime` wrapper:
`CString::new(format).unwrap()` on an embedded NUL byte, and the slice
`&buf[..l]` when the reported count exceeds the buffer length. -/
inductive PanicKind where
  | nulEncodingError : PanicKind
  | sliceOutOfRange : PanicKind
deriving Repr, DecidableEq

/-- The fixed capacity of the output buffer: `let buf = [0_u8; 100];`. -/
def bufCapacity : Nat := 100

/-- `get_local_tm_from_epoch`: zero a `tm`, call `localtime_r`, return it
by value. -/
def get_local_tm_from_epoch (os : OS) (st : ProcState) (epoch : Int) : Tm :=
  os.localtime_r st.tz epoch zeroTm

/-- `get_gmt_tm_from_epoch`: zero a `tm`, call `gmtime_r`, return it by
value. -/
def get_gmt_tm_from_epoch (os : OS) (epoch : Int) : Tm :=
  os.gmtime_r epoch zeroTm

/-- The crate's private `strftime` wrapper: encode the format as a
C string (panics on an embedded NUL), allocate a 100-byte zeroed buffer,
call the C routine with the buffer, its length, the format and the record,
then lossily decode exactly the first `l` reported bytes (the slice
`&buf[..l]` panics when `l` exceeds the buffer length).  The buffer after
the foreign call still has exactly `bufCapacity` bytes, which the model
enforces by padding/truncating the oracle's answer to that length. -/
def strftime (os : OS) (st : ProcState) (format : String) (tm : Tm) :
    Except PanicKind String :=
  if 0 ∈ strBytes format then .error .nulEncodingError
  else
    let call := os.c_strftime st.locale (List.replicate bufCapacity 0) bufCapacity
      (strBytes format) tm
    let l := call.1
    let buf := List.take bufCapacity (call.2 ++ List.replicate bufCapacity 0)
    if l ≤ bufCapacity then .ok (fromUtf8Lossy (buf.take l))
    else .error .sliceOutOfRange

/-- `strftime_local`: format in the local timezone. -/
def strftime_local (os : OS) (st : ProcState) (format : String) (epoch : Int) :
    Except PanicKind String :=
  strftime os st format (get_local_tm_from_epoch os st epoch)

/-- `strftime_gmt`: format in GMT. -/
def strftime_gmt (os : OS) (st : ProcState) (format : String) (epoch : Int) :
    Except PanicKind String :=
  strftime os st format (get_gmt_tm_from_epoch os epoch)

/-- `set_locale`: `setlocale(LC_ALL, "")`, reloading the process locale
from the environment; it fully supersedes the previous activation. -/
def set_locale (os : OS) (env : Env) (st : ProcState) : ProcState :=
  { st with locale := os.localeOfEnv env.lc_all }

/-- `tzset`: reload the process timezone rules from the environment; it
fully supersedes the previous activation. -/
def tzset (os : OS) (env : Env) (st : ProcState) : ProcState :=
  { st with tz := os.tzOfEnv env.tz }

/-- `epoch`: `time(NULL)`, returned unchanged. -/
def epoch (os : OS) : Int := os.clock

/-- The crate's public operations, for stating process-level properties. -/
inductive Op where
  | opSetLocale : Op
  | opTzset : Op
  | opStrftime : String → Tm → Op
  | opStrftimeLocal : String → Int → Op
  | opStrftimeGmt : String → Int → Op
  | opEpoch : Op
deriving Repr, DecidableEq

/-- Observable output of one operation. -/
inductive Out where
  | unitOut : Out
  | textOut : Except PanicKind String → Out
  | intOut : Int → Out
deriving Repr

/-- One API call: its observable output and the process state after it. -/
def step (os : OS) (env : Env) (st : ProcState) : Op → Out × ProcState
  | .opSetLocale => (.unitOut, set_locale os env st)
  | .opTzset => (.unitOut, tzset os env st)
  | .opStrftime f tm => (.textOut (strftime os st f tm), st)
  | .opStrftimeLocal f e => (.textOut (strftime_local os st f e), st)
  | .opStrftimeGmt f e => (.textOut (strftime_gmt os st f e), st)
  | .opEpoch => (.intOut (epoch os), st)

/-- Run a sequence of API calls, threading the process state. -/
def run (os : OS) (env : Env) : ProcState → List Op → List Out × ProcState
  | st, [] => ([], st)
  | st, op :: ops =>
    let r := step os env st op
    let rs := run os env r.2 ops
    (r.1 :: rs.1, rs.2)

/-- A concrete oracle for witnesses: conversions return the record
unchanged, the C formatter reports truncation (count 0), the clock reads
0, and environment lookups are the identity. -/
def trivialOS : OS where
  localtime_r := fun _ _ t => t
  gmtime_r := fun _ t => t
  c_strftime := fun _ buf _ _ _ => (0, buf)
  clock := 0
  localeOfEnv := fun s => s
  tzOfEnv := fun s => s

/-- A concrete oracle for witnesses whose C formatter writes the three
bytes of "Wed" and reports count 3. -/
def sampleOS : OS where
  localtime_r := fun _ _ t => t
  gmtime_r := fun _ t => t
  c_strftime := fun _ _ _ _ _ => (3, [87, 101, 100] ++ List.replicate 97 0)
  clock := 1565151596
  localeOfEnv := fun s => s
  tzOfEnv := fun s => s

/-- A concrete process state for witnesses. -/
def st0 : ProcState := { locale := "en_US.UTF-8", tz := "Europe/Brussels" }

/-- A concrete format string "%c" built from its characters. -/
def fmtC : String := String.mk ['%', 'c']

/-- Iterating an idempotent function one or more times equals applying it
once. -/
theorem iterate_of_idem {α : Type} (f : α → α) (h : ∀ x, f (f x) = f x)
    (n : Nat) (x : α) : f^[n + 1] x = f x := by
  induction n with
  | zero => simp
  | succ k ih => rw [Function.iterate_succ_apply', ih, h]

/-- C1: a format string with an embedded NUL byte makes `strftime` fail
with the NUL-encoding panic, with no partial result, and the outcome is
independent of the OS oracle — in particular the C formatting routine is
never consulted. -/
theorem strftime_nul_fails_before_os_call (os : OS) (st : ProcState)
    (format : String) (tm : Tm) (h : 0 ∈ strBytes format) :
    strftime os st format tm = .error .nulEncodingError ∧
    ∀ os2 : OS, strftime os2 st format tm = strftime os st format tm := by
  constructor
  · simp only [strftime, if_pos h]
  · intro os2
    simp only [strftime, if_pos h]

/-- Concrete instantiation of the C1 theorem at the format "a\x00". -/
theorem strftime_nul_fails_before_os_call_witness :
    0 ∈ strBytes (String.mk ['a', Char.ofNat 0]) ∧
    strftime trivialOS st0 (String.mk ['a', Char.ofNat 0]) zeroTm =
      .error .nulEncodingError :=
  ⟨by decide,
    (strftime_nul_fails_before_os_call trivialOS st0 (String.mk ['a', Char.ofNat 0])
      zeroTm (by decide)).1⟩

/-- C3: `strftime_local` and `strftime_gmt` are exactly the compositions
of `strftime` with the local / GMT calendar conversions. -/
theorem strftime_convenience_compositions (os : OS) (st : ProcState)
    (f : String) (e : Int) (_h : 0 ∉ strBytes f) :
    strftime_local os st f e = strftime os st f (get_local_tm_from_epoch os st e) ∧
    strftime_gmt os st f e = strftime os st f (get_gmt_tm_from_epoch os e) :=
  ⟨rfl, rfl⟩

/-- Concrete instantiation of the C3 theorem at "%c" and epoch
1565151596. -/
theorem strftime_convenience_compositions_witness :
    0 ∉ strBytes fmtC ∧
    strftime_local trivialOS st0 fmtC 1565151596 =
      strftime trivialOS st0 fmtC (get_local_tm_from_epoch trivialOS st0 1565151596) :=
  ⟨by decide,
    (strftime_convenience_compositions trivialOS st0 fmtC 1565151596 (by decide)).1⟩

/-- C5: both calendar conversions call the OS routine on the fully
zero-initialized record and return the populated record by value; equal
inputs give equal (independent) records. -/
theorem tm_conversions_zero_initialized (os : OS) (st : ProcState) (e : Int) :
    get_local_tm_from_epoch os st e = os.localtime_r st.tz e zeroTm ∧
    get_gmt_tm_from_epoch os e = os.gmtime_r e zeroTm ∧
    tmIsZero zeroTm :=
  ⟨rfl, rfl, by decide⟩

/-- C7: `set_locale` and `tzset` are idempotent under an unchanged
environment — any number of consecutive calls leaves the same process
state as one call, so subsequent formatting results coincide. -/
theorem reloads_idempotent (os : OS) (env : Env) (st : ProcState)
    (f : String) (tm : Tm) (n : Nat) :
    (set_locale os env)^[n + 1] st = set_locale os env st ∧
    (tzset os env)^[n + 1] st = tzset os env st ∧
    strftime os ((set_locale os env)^[n + 1] st) f tm =
      strftime os (set_locale os env st) f tm ∧
    strftime os ((tzset os env)^[n + 1] st) f tm =
      strftime os (tzset os env st) f tm := by
  have h1 : ∀ s, set_locale os env (set_locale os env s) = set_locale os env s :=
    fun s => rfl
  have h2 : ∀ s, tzset os env (tzset os env s) = tzset os env s :=
    fun s => rfl
  have e1 := iterate_of_idem (set_locale os env) h1 n st
  have e2 := iterate_of_idem (tzset os env) h2 n st
  exact ⟨e1, e2, by rw [e1], by rw [e2]⟩

/-- C8: a `strftime` call leaves the process state unchanged, so two
invocations with the same specifier and record return the same output,
and any later sequence of calls is unaffected by the call having
happened. -/
theorem strftime_stateless (os : OS) (env : Env) (st : ProcState)
    (f : String) (tm : Tm) :
    (step os env st (.opStrftime f tm)).2 = st ∧
    (step os env (step os env st (.opStrftime f tm)).2 (.opStrftime f tm)).1 =
      (step os env st (.opStrftime f tm)).1 ∧
    ∀ ops : List Op,
      run os env (step os env st (.opStrftime f tm)).2 ops = run os env st ops :=
  ⟨rfl, rfl, fun _ => rfl⟩

/-- C9: `epoch` takes no input, returns the OS clock value unchanged with
no error path and no state change, and any clock value (including -1)
passes through as-is. -/
theorem epoch_passes_clock_through (os : OS) (env : Env) (st : ProcState) :
    epoch os = os.clock ∧
    step os env st .opEpoch = (.intOut os.clock, st) ∧
    ∀ v : Int, epoch { os with clock := v } = v :=
  ⟨rfl, rfl, fun _ => rfl⟩

/-- C2: the output buffer capacity is exactly 100 bytes; `strftime`'s
result depends only on the OS formatter's answer for the zeroed 100-byte
buffer with max 100 (no retry at any other capacity); and when the
formatter reports truncation (count 0), the call returns the reported
empty result rather than an error. -/
theorem strftime_fixed_100_buffer (os1 os2 : OS) (st : ProcState)
    (f : String) (tm : Tm) (hnul : 0 ∉ strBytes f)
    (hagree : ∀ loc fmt t,
      os1.c_strftime loc (List.replicate bufCapacity 0) bufCapacity fmt t =
      os2.c_strftime loc (List.replicate bufCapacity 0) bufCapacity fmt t) :
    bufCapacity = 100 ∧
    strftime os1 st f tm = strftime os2 st f tm ∧
    ((os1.c_strftime st.locale (List.replicate bufCapacity 0) bufCapacity
        (strBytes f) tm).1 = 0 →
      strftime os1 st f tm = .ok "") := by
  refine ⟨rfl, ?_, ?_⟩
  · simp only [strftime, if_neg hnul]
    rw [hagree]
  · intro h0
    simp only [strftime, if_neg hnul]
    rw [h0, if_pos (Nat.zero_le bufCapacity), List.take_zero]
    rfl

/-- Concrete instantiation of the C2 theorem: the truncating oracle
yields the empty string on "%c". -/
theorem strftime_fixed_100_buffer_witness :
    0 ∉ strBytes fmtC ∧
    strftime trivialOS st0 fmtC zeroTm = .ok "" :=
  ⟨by decide,
    (strftime_fixed_100_buffer trivialOS trivialOS st0 fmtC zeroTm (by decide)
      (fun _ _ _ => rfl)).2.2 rfl⟩

/-- C4: on a successful call (reported count within the 100-byte buffer),
`strftime` returns `.ok` of the lossy UTF-8 decoding of exactly the first
`l` buffer bytes — decoding is total, never an error — and the result
depends on no byte beyond the reported count. -/
theorem strftime_lossy_decodes_reported_count (os : OS) (st : ProcState)
    (f : String) (tm : Tm) (l : Nat) (buf : List Nat) (hnul : 0 ∉ strBytes f)
    (hcall : os.c_strftime st.locale (List.replicate bufCapacity 0) bufCapacity
      (strBytes f) tm = (l, buf))
    (hlen : buf.length = bufCapacity) (hl : l ≤ bufCapacity) :
    strftime os st f tm = .ok (fromUtf8Lossy (buf.take l)) ∧
    ∀ buf2 : List Nat, buf2.take l = buf.take l →
      fromUtf8Lossy (buf2.take l) = fromUtf8Lossy (buf.take l) := by
  constructor
  · simp only [strftime, if_neg hnul, hcall, if_pos hl]
    congr 1
    rw [List.take_take, Nat.min_eq_left hl,
      List.take_append_of_le_length (hlen ▸ hl)]
  · intro buf2 h
    rw [h]

/-- Concrete instantiation of the C4 theorem: the sample oracle reports
3 bytes and the call returns their lossy decoding, "Wed". -/
theorem strftime_lossy_decodes_reported_count_witness :
    0 ∉ strBytes fmtC ∧
    strftime sampleOS st0 fmtC zeroTm =
      .ok (fromUtf8Lossy (([87, 101, 100] ++ List.replicate 97 0).take 3)) ∧
    fromUtf8Lossy (([87, 101, 100] ++ List.replicate 97 0).take 3) = "Wed" :=
  ⟨by decide,
    (strftime_lossy_decodes_reported_count sampleOS st0 fmtC zeroTm 3
      ([87, 101, 100] ++ List.replicate 97 0) (by decide) rfl (by decide)
      (by decide)).1,
    by decide⟩

/-- C6: `strftime_gmt` is unaffected by the process timezone state — two
process states sharing a locale give identical UTC-formatted output for
every specifier and epoch. -/
theorem strftime_gmt_tz_independent (os : OS) (st1 st2 : ProcState)
    (f : String) (e : Int) (h : st1.locale = st2.locale) :
    strftime_gmt os st1 f e = strftime_gmt os st2 f e := by
  unfold strftime_gmt strftime get_gmt_tm_from_epoch
  rw [h]

/-- Concrete instantiation of the C6 theorem at epoch 1565151596 with two
states differing only in timezone. -/
theorem strftime_gmt_tz_independent_witness :
    (st0.locale = (ProcState.mk "en_US.UTF-8" "UTC").locale) ∧
    strftime_gmt sampleOS st0 fmtC 1565151596 =
      strftime_gmt sampleOS (ProcState.mk "en_US.UTF-8" "UTC") fmtC 1565151596 :=
  ⟨rfl,
    strftime_gmt_tz_independent sampleOS st0 (ProcState.mk "en_US.UTF-8" "UTC")
      fmtC 1565151596 rfl⟩

/-- C10: when the OS formatter's reported count never exceeds the 100-byte
capacity, the slice `&buf[..l]` is in bounds, so `strftime`,
`strftime_local` and `strftime_gmt` all return `.ok` — no out-of-bounds
access and no panic on the slicing or decoding path. -/
theorem strftime_slice_in_bounds (os : OS) (st : ProcState) (f : String)
    (e : Int) (tm : Tm) (hnul : 0 ∉ strBytes f)
    (hrep : ∀ t : Tm, (os.c_strftime st.locale (List.replicate bufCapacity 0)
      bufCapacity (strBytes f) t).1 ≤ bufCapacity) :
    (∃ s, strftime os st f tm = .ok s) ∧
    (∃ s, strftime_local os st f e = .ok s) ∧
    (∃ s, strftime_gmt os st f e = .ok s) := by
  have key : ∀ t : Tm, ∃ s, strftime os st f t = .ok s := by
    intro t
    simp only [strftime, if_neg hnul, if_pos (hrep t)]
    exact ⟨_, rfl⟩
  exact ⟨key tm, key _, key _⟩

/-- Concrete instantiation of the C10 theorem with the truncating oracle
(reported count 0 ≤ 100). -/
theorem strftime_slice_in_bounds_witness :
    0 ∉ strBytes fmtC ∧
    (∃ s, strftime_local trivialOS st0 fmtC 1565151596 = .ok s) :=
  ⟨by decide,
    (strftime_slice_in_bounds trivialOS st0 fmtC 1565151596 zeroTm (by decide)
      (fun _ => Nat.zero_le _)).2.1⟩

end LibcStrftime
